import Mathlib

/-
Verification of the NotaFacil invoice chatbot core (src/api/gemini-proxy.ts):
the credential-hiding relay handler, the operation dispatcher
executeFunctionCall, and the send/dispatch portion of handleSend.

Conventions of the embedding:
* JS exceptions are the Except.error constructor; an in-band error-message
  object (the DispatchError of the spec) is the ExecResult.error value.
* Machine time is minutes since the Unix epoch (UTC) as an Int, together with
  the session timezone offset in minutes (local = utc + offset), which is how
  the JS Date object behaves for the operations the code performs.
* The external invoice store (owned by the host application, outside this
  repository slice) is a list of records; its add/update/delete operations are
  modelled from the spec where noted.
-/

namespace NotaFacil

/-- Ascii lowercasing of one character, as JS toLowerCase acts on the ascii
invoice ids handled by the code. -/
def lowerChar (c : Char) : Char :=
  if 65 ≤ c.toNat ∧ c.toNat ≤ 90 then Char.ofNat (c.toNat + 32) else c

/-- Lowercasing of a string (JS String.prototype.toLowerCase). -/
def lowerStr (s : String) : String := String.mk (s.toList.map lowerChar)

/-- Splitting a character list at dashes, as JS split with separator dash. -/
def splitDashChars : List Char → List (List Char)
  | [] => [[]]
  | c :: cs =>
    match splitDashChars cs with
    | [] => [[]]
    | g :: gs => if c = '-' then [] :: g :: gs else (c :: g) :: gs

/-- JS split on the dash separator. -/
def splitDash (s : String) : List String := (splitDashChars s.toList).map String.mk

/-- Value of a digit string. -/
def digitsVal (cs : List Char) : Nat := cs.foldl (fun n c => n * 10 + (c.toNat - 48)) 0

/-- JS Number conversion restricted to the integer forms the date code feeds it:
the empty string converts to 0 as in JS, a plain (optionally negated) digit
string to its value, and anything else is NaN, rendered none. -/
def jsNum? (s : String) : Option Int :=
  match s.toList with
  | [] => some 0
  | '-' :: cs => if cs ≠ [] ∧ cs.all Char.isDigit then some (-(digitsVal cs : Int)) else none
  | cs => if cs ≠ [] ∧ cs.all Char.isDigit then some ((digitsVal cs : Int)) else none

/-- The parsed components of a dash-separated date string, as produced by
split followed by map Number in the source. -/
def splitNums (s : String) : List (Option Int) := (splitDash s).map jsNum?

/-- Day number of a proleptic Gregorian civil date (days since 1970-01-01).
The month must lie in 1..12; the day is counted linearly, which matches the
day rollover of the JS Date epoch arithmetic. Standard civil-from-days
algorithm, written with truncating division exactly as usual. -/
def daysFromCivil (y m d : Int) : Int :=
  let y1 := if m ≤ 2 then y - 1 else y
  let era := Int.tdiv (if 0 ≤ y1 then y1 else y1 - 399) 400
  let yoe := y1 - era * 400
  let doy := Int.tdiv (153 * (m + (if 2 < m then -3 else 9)) + 2) 5 + d - 1
  let doe := yoe * 365 + Int.tdiv yoe 4 - Int.tdiv yoe 100 + doy
  era * 146097 + doe - 719468

/-- Civil date of a day number; inverse of daysFromCivil on valid dates. -/
def civilFromDays (z0 : Int) : Int × Int × Int :=
  let z := z0 + 719468
  let era := Int.tdiv (if 0 ≤ z then z else z - 146096) 146097
  let doe := z - era * 146097
  let yoe := Int.tdiv (doe - Int.tdiv doe 1460 + Int.tdiv doe 36524 - Int.tdiv doe 146096) 365
  let y := yoe + era * 400
  let doy := doe - (365 * yoe + Int.tdiv yoe 4 - Int.tdiv yoe 100)
  let mp := Int.tdiv (5 * doy + 2) 153
  let d := doy - Int.tdiv (153 * mp + 2) 5 + 1
  let m := mp + (if mp < 10 then 3 else -9)
  (if m ≤ 2 then y + 1 else y, m, d)

/-- JS Date(year, monthIndex, day) as a day number: the two-digit-year quirk
maps year arguments 0..99 to 1900..1999, and an out-of-range month index is
normalised into the year, per the ECMA MakeDay rules. -/
def dateCtorDays (y mIdx d : Int) : Int :=
  let yr := if 0 ≤ y ∧ y ≤ 99 then y + 1900 else y
  daysFromCivil (yr + Int.fdiv mIdx 12) (Int.emod mIdx 12 + 1) d

/-- The day number the source builds with new Date(year, month - 1, day) from
the split date components; none is the JS Invalid Date. -/
def jsDateFromParts : List (Option Int) → Option Int
  | some y :: some m :: some d :: _ => some (dateCtorDays y (m - 1) d)
  | _ => none

/-- Decimal digits of a natural number (auxiliary, fuel-based). -/
def natStrAux : Nat → Nat → List Char
  | 0, _ => []
  | fuel + 1, n => if n = 0 then [] else natStrAux fuel (n / 10) ++ [Char.ofNat (48 + n % 10)]

/-- Decimal string of a natural number. -/
def natStr (n : Nat) : String := if n = 0 then "0" else String.mk (natStrAux (n + 1) n)

/-- Decimal string of an integer. -/
def intStr (z : Int) : String := if z < 0 then "-" ++ natStr z.natAbs else natStr z.natAbs

/-- Left-pad with zeros to the given width. -/
def padZeros (w : Nat) (s : String) : String :=
  String.mk (List.replicate (w - s.length) '0') ++ s

/-- Date-only ISO string yyyy-mm-dd of a day number, the date part produced by
toISOString. -/
def isoDateOfDays (z : Int) : String :=
  match civilFromDays z with
  | (y, m, d) => padZeros 4 (intStr y) ++ "-" ++ padZeros 2 (intStr m) ++ "-" ++ padZeros 2 (intStr d)

/-- Modelled from the spec: the invoice status enum of types.ts, which is not
part of this repository slice; values Paid, Pending, Overdue carrying the
Portuguese string values named by the tool declarations (Pago, Pendente,
Vencido). -/
inductive InvoiceStatus
  | Pago
  | Pendente
  | Vencido
  deriving DecidableEq

/-- Modelled from the spec: the string value of each status enum member. -/
def statusStr : InvoiceStatus → String
  | .Pago => "Pago"
  | .Pendente => "Pendente"
  | .Vencido => "Vencido"

/-- An invoice record. clientName and amount are optional because the source
copies them from the argument object unchecked, so they can be undefined. -/
structure Invoice where
  id : String
  clientName : Option String
  amount : Option Int
  issueDate : String
  dueDate : String
  status : InvoiceStatus
  observations : String
  deriving DecidableEq

/-- The argument object of a function call; a field that the call does not
supply is none, matching an absent JS object key. -/
structure Args where
  id : Option String := none
  clientName : Option String := none
  amount : Option Int := none
  dueDate : Option String := none
  status : Option InvoiceStatus := none
  observations : Option String := none
  deriving DecidableEq

/-- The ambient session: the current instant in minutes since the epoch (UTC),
the timezone offset in minutes that is added to UTC to obtain local time, and
the id the external store will assign to the next created invoice (modelled
from the spec: the store, outside this repository slice, owns id assignment). -/
structure Session where
  nowUtcMin : Int
  tzOffMin : Int
  freshId : String
  deriving DecidableEq

/-- Day number of the current UTC calendar date. -/
def utcDays (sess : Session) : Int := Int.fdiv sess.nowUtcMin 1440

/-- Day number of the current calendar date in the session local time zone. -/
def localDays (sess : Session) : Int := Int.fdiv (sess.nowUtcMin + sess.tzOffMin) 1440

/-- The date part of toISOString of an instant: the UTC calendar date. -/
def toISODateString (utcMin : Int) : String := isoDateOfDays (Int.fdiv utcMin 1440)

/-- The current calendar date of the session local time zone, formatted like an
ISO date. This is the session local date the specification speaks about,
defined here from its words so the code can be compared against it. -/
def localTodayISO (sess : Session) : String := isoDateOfDays (localDays sess)

/-- Modelled from the spec: the external store add operation appends the new
record, with the store-assigned id already filled in. -/
def storeAdd (s : List Invoice) (newInvoiceData : Invoice) : List Invoice :=
  s ++ [newInvoiceData]

/-- Modelled from the spec: the external store update operation replaces every
stored record whose id equals the id of the incoming record. -/
def storeUpdate (s : List Invoice) (updated : Invoice) : List Invoice :=
  s.map fun inv => if inv.id = updated.id then updated else inv

/-- Modelled from the spec: the external store delete operation removes the
records carrying exactly the given id. -/
def storeDelete (s : List Invoice) (i : String) : List Invoice :=
  s.filter fun inv => inv.id != i

/-- The case-insensitive id test the dispatcher uses for lookups. -/
def lowEq (i : String) (inv : Invoice) : Bool := lowerStr inv.id == lowerStr i

/-- The reduced projection the list operation returns. -/
structure InvoiceSummary where
  id : String
  clientName : Option String
  amount : Option Int
  status : InvoiceStatus
  dueDate : String
  deriving DecidableEq

/-- Projection of a record to its list summary. -/
def summarize (inv : Invoice) : InvoiceSummary :=
  ⟨inv.id, inv.clientName, inv.amount, inv.status, inv.dueDate⟩

/-- The value executeFunctionCall returns: the success payload of each
operation, or the in-band error-message object (the DispatchError). -/
inductive ExecResult
  | createOk (clientName : Option String) (amount : Option Int)
  | invoiceCopy (inv : Invoice)
  | updateOk (id : String)
  | deleteOk (id : String)
  | listOk (xs : List InvoiceSummary)
  | message (msg : String)
  | error (msg : String)
  deriving DecidableEq

/-- The TypeError thrown when a property of undefined is read. -/
def typeErrMsg (fld : String) : String :=
  "TypeError: Cannot read properties of undefined (reading \x27" ++ fld ++ "\x27)"

/-- The not-found message of the dispatcher. -/
def notFoundMsg (i : String) : String := "Nota fiscal com ID " ++ i ++ " não encontrada."

/-- createInvoice: reads dueDate (throwing when absent), builds the local
midnight of today and of the due date, tags the record Vencido when the due
date is strictly earlier, stamps issueDate with the toISOString date, defaults
observations to the empty string, and hands the record to the store. -/
def executeCreate (sess : Session) (args : Args) (invoices : List Invoice) :
    Except String ExecResult × List Invoice :=
  match args.dueDate with
  | none => (Except.error (typeErrMsg "split"), invoices)
  | some due =>
    let todayEpoch := Int.fdiv (sess.nowUtcMin + sess.tzOffMin) 1440 * 1440 - sess.tzOffMin
    let overdue : Bool :=
      match jsDateFromParts (splitNums due) with
      | some z => decide (z * 1440 - sess.tzOffMin < todayEpoch)
      | none => false
    let newInvoiceData : Invoice :=
      { id := sess.freshId
        clientName := args.clientName
        amount := args.amount
        issueDate := toISODateString sess.nowUtcMin
        dueDate := due
        status := if overdue then .Vencido else .Pendente
        observations := args.observations.getD "" }
    (Except.ok (ExecResult.createOk args.clientName args.amount),
      storeAdd invoices newInvoiceData)

/-- The JS rendering of the id argument inside a template literal: an absent
field prints as undefined. -/
def jsIdStr (idArg : Option String) : String := idArg.getD "undefined"

/-- The case-insensitive find of the source. The callback reads
args.id.toLowerCase(), so it throws only when the store is non-empty and the
id argument is absent; on an empty store the callback never runs and the
lookup finds nothing without throwing. -/
def findByIdArg (idArg : Option String) (invoices : List Invoice) :
    Except String (Option Invoice) :=
  match invoices with
  | [] => Except.ok none
  | _ :: _ =>
    match idArg with
    | none => Except.error (typeErrMsg "toLowerCase")
    | some i => Except.ok (invoices.find? (lowEq i))

/-- The case-insensitive existence test of the source (the some call), with
the same callback behaviour: it throws only on a non-empty store with the id
argument absent, and an empty store yields false without throwing. -/
def anyByIdArg (idArg : Option String) (invoices : List Invoice) :
    Except String Bool :=
  match invoices with
  | [] => Except.ok false
  | _ :: _ =>
    match idArg with
    | none => Except.error (typeErrMsg "toLowerCase")
    | some i => Except.ok (invoices.any (lowEq i))

/-- getInvoiceDetails: looks the record up case-insensitively (the id being
read inside the find callback) and returns a copy of it, or the not-found
message echoing the id argument as JS prints it. -/
def executeGet (args : Args) (invoices : List Invoice) :
    Except String ExecResult × List Invoice :=
  match findByIdArg args.id invoices with
  | Except.error e => (Except.error e, invoices)
  | Except.ok (some inv) => (Except.ok (ExecResult.invoiceCopy inv), invoices)
  | Except.ok none =>
    (Except.ok (ExecResult.error (notFoundMsg (jsIdStr args.id))), invoices)

/-- Shallow merge of the argument object over an existing record, as the JS
spread of args over the original invoice; fields absent from args keep the
stored value, and the id, always present in an update call, is overwritten
with the casing of the argument. -/
def mergeInvoiceArgs (inv : Invoice) (args : Args) : Invoice :=
  { id := args.id.getD inv.id
    clientName := match args.clientName with
      | some v => some v
      | none => inv.clientName
    amount := match args.amount with
      | some v => some v
      | none => inv.amount
    issueDate := inv.issueDate
    dueDate := args.dueDate.getD inv.dueDate
    status := args.status.getD inv.status
    observations := args.observations.getD inv.observations }

/-- updateInvoice: finds the record case-insensitively (the id being read
inside the find callback), errors in-band when nothing matches, otherwise
writes the shallow merge of args over the original to the store. -/
def executeUpdate (args : Args) (invoices : List Invoice) :
    Except String ExecResult × List Invoice :=
  match findByIdArg args.id invoices with
  | Except.error e => (Except.error e, invoices)
  | Except.ok none =>
    (Except.ok (ExecResult.error (notFoundMsg (jsIdStr args.id))), invoices)
  | Except.ok (some originalInvoice) =>
    (Except.ok (ExecResult.updateOk (jsIdStr args.id)),
      storeUpdate invoices (mergeInvoiceArgs originalInvoice args))

/-- deleteInvoice: checks existence case-insensitively (the id being read
inside the some callback), errors in-band when nothing matches, otherwise
asks the store to delete the id as given in the arguments. -/
def executeDelete (args : Args) (invoices : List Invoice) :
    Except String ExecResult × List Invoice :=
  match anyByIdArg args.id invoices with
  | Except.error e => (Except.error e, invoices)
  | Except.ok true =>
    (Except.ok (ExecResult.deleteOk (jsIdStr args.id)), storeDelete invoices (jsIdStr args.id))
  | Except.ok false =>
    (Except.ok (ExecResult.error (notFoundMsg (jsIdStr args.id))), invoices)

/-- listInvoices: optionally filters by status, returns the reduced summaries
when any remain, and a descriptive message object otherwise. -/
def executeList (args : Args) (invoices : List Invoice) :
    Except String ExecResult × List Invoice :=
  let results : List Invoice := match args.status with
    | some st => invoices.filter fun inv => decide (inv.status = st)
    | none => invoices
  if 0 < results.length then
    (Except.ok (ExecResult.listOk (results.map summarize)), invoices)
  else
    (Except.ok (ExecResult.message
      ("Nenhuma nota fiscal encontrada com o status \x27" ++
        (match args.status with
          | some st => statusStr st
          | none => "qualquer") ++ "\x27.")), invoices)

/-- The operation dispatcher executeFunctionCall: the switch over the function
name; an unknown name yields an in-band error object. The first component is
the JS return value (Except.error being a thrown exception), the second the
state of the external store after the call. -/
def executeFunctionCall (sess : Session) (name : String) (args : Args)
    (invoices : List Invoice) : Except String ExecResult × List Invoice :=
  if name = "createInvoice" then executeCreate sess args invoices
  else if name = "getInvoiceDetails" then executeGet args invoices
  else if name = "updateInvoice" then executeUpdate args invoices
  else if name = "deleteInvoice" then executeDelete args invoices
  else if name = "listInvoices" then executeList args invoices
  else (Except.ok (ExecResult.error ("Função desconhecida: " ++ name)), invoices)

/-- The condition under which the dispatcher does not throw: createInvoice
reads dueDate unconditionally, while the id operations read the id only
inside the lookup callback, which never runs on an empty store. -/
def lookupFieldOk (name : String) (args : Args) (invoices : List Invoice) : Bool :=
  if name = "createInvoice" then args.dueDate.isSome
  else if name = "getInvoiceDetails" then args.id.isSome || invoices.isEmpty
  else if name = "updateInvoice" then args.id.isSome || invoices.isEmpty
  else if name = "deleteInvoice" then args.id.isSome || invoices.isEmpty
  else true

/-- A function call of a relay reply. -/
structure FunctionCall where
  name : String
  args : Args
  deriving DecidableEq

/-- The payload wrapped into a function response part: the result of a
successful execution, or the message of a caught exception. -/
inductive FResp
  | result (r : ExecResult)
  | errMsg (e : String)
  deriving DecidableEq

/-- One part of a provider turn. -/
inductive Part
  | text (t : String)
  | functionCall (fc : FunctionCall)
  | functionResponse (name : String) (resp : FResp)
  deriving DecidableEq

/-- One turn of the provider conversation (a Content value). -/
structure Turn where
  role : String
  parts : List Part
  deriving DecidableEq

/-- The normalized reply shape of the relay: final text when present, the list
of function calls (an absent field is the empty list), and the raw parts of
the first candidate. -/
structure Reply where
  text : Option String
  functionCalls : List FunctionCall
  parts : List Part
  deriving DecidableEq

/-- The body of a relay HTTP response. -/
inductive HandlerBody
  | jsonError (msg : String)
  | pingOk (st : String)
  | reply (r : Reply)
  deriving DecidableEq

/-- A relay HTTP response: status code and JSON body. -/
structure HandlerResp where
  status : Nat
  body : HandlerBody
  deriving DecidableEq

/-- A request reaching the relay: HTTP method, the ping probe flag of the
body, and the generation payload (its contents; model id and config are
opaque to the relay logic and omitted). -/
structure ProxyRequest where
  method : String
  ping : Bool
  contents : List Turn
  deriving DecidableEq

/-- The relay handler of api/gemini-proxy.ts. The provider is the genContent
oracle; a provider-side failure is its Except.error case, which the handler
catches and surfaces as a 500 with the message. -/
def handler (apiKey : Option String) (genContent : List Turn → Except String Reply)
    (req : ProxyRequest) : HandlerResp :=
  if req.method ≠ "POST" then ⟨405, .jsonError "Method Not Allowed"⟩
  else
    match apiKey with
    | none => ⟨500, .jsonError "API key not configured on server."⟩
    | some _ =>
      if req.ping then ⟨200, .pingOk "ok"⟩
      else
        match genContent req.contents with
        | Except.ok r => ⟨200, .reply r⟩
        | Except.error e => ⟨500, .jsonError e⟩

/-- The JS truthiness filter the orchestrator applies before emitting reply
text: an absent or empty text emits nothing. -/
def jsTruthyText : Option String → Option String
  | some t => if t = "" then none else some t
  | none => none

/-- Wrapping of one execution outcome into the response payload: the per-call
try/catch of handleSend turns a thrown exception into an error payload. -/
def wrapOutcome : Except String ExecResult → FResp
  | Except.ok v => FResp.result v
  | Except.error e => FResp.errMsg e

/-- The function response parts handleSend builds for the calls of one reply,
in order. Every call is executed against the same invoices snapshot the
component closed over, which the source never re-reads within one send. -/
def functionResponsesFor (sess : Session) (invoices : List Invoice)
    (fcs : List FunctionCall) : List Part :=
  fcs.map fun fc =>
    Part.functionResponse fc.name
      (wrapOutcome (executeFunctionCall sess fc.name fc.args invoices).fst)

/-- The observable outcome of one handleSend: the final provider history, the
histories sent to the relay in order, the function calls that were actually
dispatched, and the text emitted as the final assistant message, if any. -/
structure SendOutcome where
  history : List Turn
  sent : List (List Turn)
  dispatched : List FunctionCall
  finalText : Option String
  deriving DecidableEq

/-- The send/dispatch portion of handleSend (source lines 323 to 363): one
relay call; if the reply carries function calls, the raw parts are appended as
a model turn, every call is executed and its response collected, the responses
are appended together as one user turn, and exactly one further relay call is
made; then the text of whichever reply is current is emitted when truthy. The
relay is modelled as a total function from history to the normalized reply;
transport failures abort the turn through the outer catch and are outside this
model. -/
def handleSend (sess : Session) (relay : List Turn → Reply)
    (invoices : List Invoice) (history0 : List Turn) : SendOutcome :=
  let r1 := relay history0
  if r1.functionCalls.isEmpty then
    ⟨history0, [history0], [], jsTruthyText r1.text⟩
  else
    let h1 := history0 ++ [⟨"model", r1.parts⟩]
    let resps := functionResponsesFor sess invoices r1.functionCalls
    let h2 := h1 ++ [⟨"user", resps⟩]
    let r2 := relay h2
    ⟨h2, [history0, h2], r1.functionCalls, jsTruthyText r2.text⟩

/-- Name carried by a function response part, none for other parts. -/
def partRespName : Part → Option String
  | Part.functionResponse n _ => some n
  | _ => none

/-- Whether a part is a function response. -/
def isRespPart : Part → Bool
  | Part.functionResponse _ _ => true
  | _ => false

/-- Number of function response parts across a history. -/
def countResponses (h : List Turn) : Nat :=
  (((h.map Turn.parts).flatten).filter isRespPart).length

/-- A fixed session: 23:00 UTC on 1970-01-01, in a zone two hours ahead of
UTC, where the local calendar date is already 1970-01-02. -/
def sess0 : Session := ⟨1380, 120, "inv-1"⟩

/-- Create arguments lacking the required dueDate. -/
def argsNoDue : Args := { clientName := some "Alice", amount := some 100 }

/-- Valid create arguments. -/
def argsC3 : Args :=
  { clientName := some "Alice", amount := some 100, dueDate := some "1970-01-05" }

/-- Arguments carrying only an id. -/
def argsIdX : Args := { id := some "x" }

/-- The empty argument object. -/
def emptyArgs : Args := {}

/-- A stored invoice with an upper-case id. -/
def invABC : Invoice := ⟨"ABC", some "Bob", some 50, "1970-01-01", "1970-01-03", .Pendente, ""⟩

/-- Update arguments addressing invABC with lower-case id spelling. -/
def argsAbc : Args := { id := some "abc", clientName := some "Carol" }

/-- A relay that always replies with one function call and some text. -/
def relayLoop : List Turn → Reply := fun _ =>
  ⟨some "oi", [⟨"listInvoices", emptyArgs⟩], []⟩

/-- A relay whose first reply has one call and whose follow-up reply again
has one call, together with final text. -/
def relayTwo : List Turn → Reply := fun h =>
  if h.isEmpty then ⟨none, [⟨"getInvoiceDetails", argsIdX⟩], []⟩
  else ⟨some "done", [⟨"listInvoices", emptyArgs⟩], []⟩

/-- A relay whose first reply carries two calls, one of which will throw. -/
def relayW : List Turn → Reply := fun _ =>
  ⟨some "ok", [⟨"deleteInvoice", argsIdX⟩, ⟨"createInvoice", argsNoDue⟩], [Part.text "t"]⟩

/-- A provider oracle that always fails. -/
def gDown : List Turn → Except String Reply := fun _ => Except.error "provider down"

/-- A provider oracle that always succeeds with an empty reply. -/
def gUp : List Turn → Except String Reply := fun _ => Except.ok ⟨none, [], []⟩

/-- The probe request. -/
def reqPing : ProxyRequest := ⟨"POST", true, []⟩

/-- Dispatch of the createInvoice name. -/
theorem exec_create_def (sess : Session) (args : Args) (invoices : List Invoice) :
    executeFunctionCall sess "createInvoice" args invoices = executeCreate sess args invoices := rfl

/-- Dispatch of the getInvoiceDetails name. -/
theorem exec_get_def (sess : Session) (args : Args) (invoices : List Invoice) :
    executeFunctionCall sess "getInvoiceDetails" args invoices = executeGet args invoices := rfl

/-- Dispatch of the updateInvoice name. -/
theorem exec_update_def (sess : Session) (args : Args) (invoices : List Invoice) :
    executeFunctionCall sess "updateInvoice" args invoices = executeUpdate args invoices := rfl

/-- Dispatch of the listInvoices name. -/
theorem exec_list_def (sess : Session) (args : Args) (invoices : List Invoice) :
    executeFunctionCall sess "listInvoices" args invoices = executeList args invoices := rfl

/-- With the id argument present the find never throws and is the plain
case-insensitive search, on any store. -/
theorem findByIdArg_some (i : String) (invoices : List Invoice) :
    findByIdArg (some i) invoices = Except.ok (invoices.find? (lowEq i)) := by
  unfold findByIdArg
  cases invoices <;> rfl

/-- The find throws exactly when the id argument is absent and the store is
non-empty. -/
theorem findByIdArg_error (idArg : Option String) (invoices : List Invoice) (e : String)
    (h : findByIdArg idArg invoices = Except.error e) :
    idArg = none ∧ invoices.isEmpty = false := by
  unfold findByIdArg at h
  cases invoices with
  | nil => simp at h
  | cons x xs =>
    cases idArg with
    | none => exact ⟨rfl, rfl⟩
    | some i => simp at h

/-- When the find succeeds, the id argument was present or the store empty. -/
theorem findByIdArg_ok (idArg : Option String) (invoices : List Invoice) (o : Option Invoice)
    (h : findByIdArg idArg invoices = Except.ok o) :
    (idArg.isSome || invoices.isEmpty) = true := by
  unfold findByIdArg at h
  cases invoices with
  | nil => simp
  | cons x xs =>
    cases idArg with
    | none => simp at h
    | some i => simp

/-- The existence test throws exactly when the id argument is absent and the
store is non-empty. -/
theorem anyByIdArg_error (idArg : Option String) (invoices : List Invoice) (e : String)
    (h : anyByIdArg idArg invoices = Except.error e) :
    idArg = none ∧ invoices.isEmpty = false := by
  unfold anyByIdArg at h
  cases invoices with
  | nil => simp at h
  | cons x xs =>
    cases idArg with
    | none => exact ⟨rfl, rfl⟩
    | some i => simp at h

/-- When the existence test succeeds, the id argument was present or the
store empty. -/
theorem anyByIdArg_ok (idArg : Option String) (invoices : List Invoice) (b : Bool)
    (h : anyByIdArg idArg invoices = Except.ok b) :
    (idArg.isSome || invoices.isEmpty) = true := by
  unfold anyByIdArg at h
  cases invoices with
  | nil => simp
  | cons x xs =>
    cases idArg with
    | none => simp at h
    | some i => simp

/-- C6: updateInvoice on an id that matches no stored invoice, even
case-insensitively, returns the in-band not-found error object, creates no
record, and leaves the store unchanged. -/
theorem update_not_found_is_error (sess : Session) (args : Args) (invoices : List Invoice)
    (i : String) (hid : args.id = some i)
    (hnone : ∀ inv ∈ invoices, lowerStr inv.id ≠ lowerStr i) :
    executeFunctionCall sess "updateInvoice" args invoices
      = (Except.ok (ExecResult.error (notFoundMsg i)), invoices) := by
  rw [exec_update_def]
  unfold executeUpdate
  rw [hid, findByIdArg_some]
  have hfind : invoices.find? (lowEq i) = none := by
    rw [List.find?_eq_none]
    intro x hx
    simp only [lowEq, beq_iff_eq]
    exact hnone x hx
  rw [hfind]
  rfl

/-- C6 witness: a concrete store holding one invoice and an unrelated id. -/
theorem update_not_found_is_error_witness :
    executeFunctionCall sess0 "updateInvoice" { id := some "zzz" } [invABC]
      = (Except.ok (ExecResult.error (notFoundMsg "zzz")), [invABC]) :=
  update_not_found_is_error sess0 { id := some "zzz" } [invABC] "zzz" rfl (by decide)

/-- C7: on a non-empty store, listInvoices with a status filter matching no
invoice returns the descriptive message object, never an empty success list,
and with no filter it returns every invoice reduced to its summary
projection. -/
theorem list_no_match_message (sess : Session) (args1 args2 : Args) (st : InvoiceStatus)
    (invoices : List Invoice) (h1 : args1.status = some st) (h2 : args2.status = none)
    (hne : invoices ≠ []) (hnost : ∀ inv ∈ invoices, inv.status ≠ st) :
    executeFunctionCall sess "listInvoices" args1 invoices
        = (Except.ok (ExecResult.message
            ("Nenhuma nota fiscal encontrada com o status \x27" ++ statusStr st ++ "\x27.")),
           invoices)
    ∧ executeFunctionCall sess "listInvoices" args2 invoices
        = (Except.ok (ExecResult.listOk (invoices.map summarize)), invoices) := by
  constructor
  · rw [exec_list_def]
    unfold executeList
    rw [h1]
    have hfil : invoices.filter (fun inv => decide (inv.status = st)) = [] := by
      rw [List.filter_eq_nil_iff]
      intro x hx
      simp [hnost x hx]
    simp [hfil]
  · rw [exec_list_def]
    unfold executeList
    rw [h2]
    simp [List.length_pos.mpr hne]

/-- C7 witness: one Pendente invoice, filtered by Vencido and unfiltered. -/
theorem list_no_match_message_witness :
    executeFunctionCall sess0 "listInvoices" { status := some InvoiceStatus.Vencido } [invABC]
        = (Except.ok (ExecResult.message
            ("Nenhuma nota fiscal encontrada com o status \x27"
              ++ statusStr InvoiceStatus.Vencido ++ "\x27.")),
           [invABC])
    ∧ executeFunctionCall sess0 "listInvoices" emptyArgs [invABC]
        = (Except.ok (ExecResult.listOk ([invABC].map summarize)), [invABC]) :=
  list_no_match_message sess0 { status := some InvoiceStatus.Vencido } emptyArgs
    InvoiceStatus.Vencido [invABC] rfl rfl (by decide) (by decide)

/-- C8: getInvoiceDetails resolves two id spellings that agree up to letter
case to the same record, so both calls return the same result, provided some
stored invoice matches. -/
theorem read_case_insensitive (sess : Session) (invoices : List Invoice) (args1 args2 : Args)
    (i j : String) (inv : Invoice)
    (h1 : args1.id = some i) (h2 : args2.id = some j)
    (hij : lowerStr i = lowerStr j)
    (hmem : inv ∈ invoices) (hmatch : lowerStr inv.id = lowerStr i) :
    executeFunctionCall sess "getInvoiceDetails" args1 invoices
      = executeFunctionCall sess "getInvoiceDetails" args2 invoices := by
  rw [exec_get_def, exec_get_def]
  unfold executeGet
  rw [h1, h2, findByIdArg_some, findByIdArg_some]
  have hpred : lowEq i = lowEq j := by
    funext x
    unfold lowEq
    rw [hij]
  rw [hpred]
  have hsome : (invoices.find? (lowEq j)).isSome := by
    rw [List.find?_isSome]
    refine ⟨inv, hmem, ?_⟩
    simp only [lowEq, beq_iff_eq]
    rw [hmatch, hij]
  obtain ⟨y, hy⟩ := Option.isSome_iff_exists.mp hsome
  rw [hy]

/-- C8 witness: the spellings ABC and abc of the stored id ABC. -/
theorem read_case_insensitive_witness :
    executeFunctionCall sess0 "getInvoiceDetails" { id := some "ABC" } [invABC]
      = executeFunctionCall sess0 "getInvoiceDetails" { id := some "abc" } [invABC] :=
  read_case_insensitive sess0 [invABC] { id := some "ABC" } { id := some "abc" }
    "ABC" "abc" invABC rfl rfl rfl (by decide) rfl

/-- C10: when an update call addresses a stored invoice through an id whose
casing differs from the stored one, the record written to the store carries
the id of the argument, not the stored casing: the shallow merge spreads the
whole argument object, id included, over the existing record. -/
theorem update_id_casing (sess : Session) (args : Args) (invoices : List Invoice)
    (i : String) (orig : Invoice)
    (hid : args.id = some i) (hfind : invoices.find? (lowEq i) = some orig) :
    executeFunctionCall sess "updateInvoice" args invoices
        = (Except.ok (ExecResult.updateOk i),
           storeUpdate invoices (mergeInvoiceArgs orig args))
    ∧ (mergeInvoiceArgs orig args).id = i := by
  constructor
  · rw [exec_update_def]
    unfold executeUpdate
    rw [hid, findByIdArg_some, hfind]
    rfl
  · simp [mergeInvoiceArgs, hid]

/-- C10 witness: the stored id ABC addressed as abc; the merged record keeps
the argument casing abc. -/
theorem update_id_casing_witness :
    executeFunctionCall sess0 "updateInvoice" argsAbc [invABC]
        = (Except.ok (ExecResult.updateOk "abc"),
           storeUpdate [invABC] (mergeInvoiceArgs invABC argsAbc))
    ∧ (mergeInvoiceArgs invABC argsAbc).id = "abc" :=
  update_id_casing sess0 argsAbc [invABC] "abc" invABC rfl rfl

/-- C1 counterexample: createInvoice with the required dueDate missing does
not return an error-message object; the dispatcher throws a TypeError (the
Except.error case, which only the per-call catch of handleSend converts). -/
theorem exec_raises_on_missing_dueDate :
    (executeFunctionCall sess0 "createInvoice" argsNoDue []).fst
      = Except.error (typeErrMsg "split") := rfl

/-- C1 as amended: executeFunctionCall returns a result-or-error value and
never raises, except exactly where a missing field is read: createInvoice
with dueDate missing throws a TypeError, and an id operation with id missing
throws precisely when the store is non-empty, because the id is read inside
the lookup callback — on an empty store such a call returns the in-band
not-found error with the id rendered undefined. Every throwing path leaves
the store untouched, the throw happening before any store operation. -/
theorem exec_total (sess : Session) (name : String) (args : Args) (invoices : List Invoice) :
    (lookupFieldOk name args invoices = true →
      ∃ r, (executeFunctionCall sess name args invoices).fst = Except.ok r)
    ∧ (lookupFieldOk name args invoices = false →
      ∃ e, (executeFunctionCall sess name args invoices).fst = Except.error e)
    ∧ ∀ e, (executeFunctionCall sess name args invoices).fst = Except.error e →
        (executeFunctionCall sess name args invoices).snd = invoices := by
  unfold executeFunctionCall lookupFieldOk
  split_ifs with h1 h2 h3 h4 h5
  · unfold executeCreate
    cases hd : args.dueDate with
    | none =>
      exact ⟨fun hk => by simp at hk, fun _ => ⟨typeErrMsg "split", rfl⟩, fun e _ => rfl⟩
    | some due =>
      exact ⟨fun _ => ⟨ExecResult.createOk args.clientName args.amount, rfl⟩,
        fun hk => by simp at hk, fun e he => by simp at he⟩
  · unfold executeGet
    cases hfa : findByIdArg args.id invoices with
    | error e =>
      obtain ⟨hnone, hne⟩ := findByIdArg_error _ _ _ hfa
      exact ⟨fun hk => by simp [hnone, hne] at hk, fun _ => ⟨e, rfl⟩, fun e' _ => rfl⟩
    | ok o =>
      have hok := findByIdArg_ok _ _ _ hfa
      cases o with
      | none =>
        exact ⟨fun _ => ⟨ExecResult.error (notFoundMsg (jsIdStr args.id)), rfl⟩,
          fun hk => by rw [hok] at hk; simp at hk, fun e he => by simp at he⟩
      | some y =>
        exact ⟨fun _ => ⟨ExecResult.invoiceCopy y, rfl⟩,
          fun hk => by rw [hok] at hk; simp at hk, fun e he => by simp at he⟩
  · unfold executeUpdate
    cases hfa : findByIdArg args.id invoices with
    | error e =>
      obtain ⟨hnone, hne⟩ := findByIdArg_error _ _ _ hfa
      exact ⟨fun hk => by simp [hnone, hne] at hk, fun _ => ⟨e, rfl⟩, fun e' _ => rfl⟩
    | ok o =>
      have hok := findByIdArg_ok _ _ _ hfa
      cases o with
      | none =>
        exact ⟨fun _ => ⟨ExecResult.error (notFoundMsg (jsIdStr args.id)), rfl⟩,
          fun hk => by rw [hok] at hk; simp at hk, fun e he => by simp at he⟩
      | some y =>
        exact ⟨fun _ => ⟨ExecResult.updateOk (jsIdStr args.id), rfl⟩,
          fun hk => by rw [hok] at hk; simp at hk, fun e he => by simp at he⟩
  · unfold executeDelete
    cases hfa : anyByIdArg args.id invoices with
    | error e =>
      obtain ⟨hnone, hne⟩ := anyByIdArg_error _ _ _ hfa
      exact ⟨fun hk => by simp [hnone, hne] at hk, fun _ => ⟨e, rfl⟩, fun e' _ => rfl⟩
    | ok b =>
      have hok := anyByIdArg_ok _ _ _ hfa
      cases b with
      | true =>
        exact ⟨fun _ => ⟨ExecResult.deleteOk (jsIdStr args.id), rfl⟩,
          fun hk => by rw [hok] at hk; simp at hk, fun e he => by simp at he⟩
      | false =>
        exact ⟨fun _ => ⟨ExecResult.error (notFoundMsg (jsIdStr args.id)), rfl⟩,
          fun hk => by rw [hok] at hk; simp at hk, fun e he => by simp at he⟩
  · unfold executeList
    dsimp only
    cases hst : args.status with
    | none =>
      by_cases hlen : 0 < invoices.length
      · rw [if_pos hlen]
        exact ⟨fun _ => ⟨ExecResult.listOk (invoices.map summarize), rfl⟩,
          fun hk => by simp at hk, fun e he => by simp at he⟩
      · rw [if_neg hlen]
        exact ⟨fun _ => ⟨ExecResult.message _, rfl⟩, fun hk => by simp at hk,
          fun e he => by simp at he⟩
    | some st =>
      by_cases hlen : 0 < (invoices.filter fun inv => decide (inv.status = st)).length
      · rw [if_pos hlen]
        exact ⟨fun _ => ⟨ExecResult.listOk _, rfl⟩, fun hk => by simp at hk,
          fun e he => by simp at he⟩
      · rw [if_neg hlen]
        exact ⟨fun _ => ⟨ExecResult.message _, rfl⟩, fun hk => by simp at hk,
          fun e he => by simp at he⟩
  · exact ⟨fun _ => ⟨ExecResult.error ("Função desconhecida: " ++ name), rfl⟩,
      fun hk => by simp at hk, fun e he => by simp at he⟩

/-- C1 witness: an id operation with the id missing does not throw on the
empty store, the same operation does throw on a non-empty store, and the
throwing createInvoice call leaves the store untouched. -/
theorem exec_total_witness :
    (∃ r, (executeFunctionCall sess0 "getInvoiceDetails" emptyArgs []).fst = Except.ok r)
    ∧ (∃ e, (executeFunctionCall sess0 "updateInvoice" emptyArgs [invABC]).fst
        = Except.error e)
    ∧ (executeFunctionCall sess0 "createInvoice" argsNoDue []).snd = ([] : List Invoice) :=
  ⟨(exec_total sess0 "getInvoiceDetails" emptyArgs []).1 (by decide),
   (exec_total sess0 "updateInvoice" emptyArgs [invABC]).2.1 (by decide),
   (exec_total sess0 "createInvoice" argsNoDue []).2.2 (typeErrMsg "split") rfl⟩

/-- C5 counterexample: a POST probe request without the server credential is
answered with the 500 configuration error, not an OK status. -/
theorem ping_without_credential_not_ok :
    handler none gDown reqPing
        = ⟨500, HandlerBody.jsonError "API key not configured on server."⟩
    ∧ (handler none gDown reqPing).status ≠ 200 :=
  ⟨rfl, by decide⟩

/-- C5 as amended: a probe request never contacts the provider (the response
is independent of the provider oracle), and whenever the credential is
present a POST probe returns the 200 OK status, independent of provider
availability. -/
theorem ping_ok_with_credential (apiKey : Option String)
    (g1 g2 : List Turn → Except String Reply) (req : ProxyRequest)
    (hping : req.ping = true) :
    handler apiKey g1 req = handler apiKey g2 req
    ∧ (req.method = "POST" → ∀ k, apiKey = some k →
        handler apiKey g1 req = ⟨200, HandlerBody.pingOk "ok"⟩) := by
  constructor
  · unfold handler
    by_cases hm : req.method ≠ "POST"
    · rw [if_pos hm, if_pos hm]
    · rw [if_neg hm, if_neg hm]
      cases apiKey with
      | none => rfl
      | some k =>
        rw [hping]
        rfl
  · intro hm k hk
    subst hk
    unfold handler
    rw [if_neg (by simp [hm]), hping]
    rfl

/-- C5 witness: with a credential present, the probe answer is the same under
a failing and under a healthy provider, and is the 200 OK status. -/
theorem ping_ok_with_credential_witness :
    handler (some "k") gDown reqPing = handler (some "k") gUp reqPing
    ∧ handler (some "k") gDown reqPing = ⟨200, HandlerBody.pingOk "ok"⟩ :=
  ⟨(ping_ok_with_credential (some "k") gDown gUp reqPing rfl).1,
   (ping_ok_with_credential (some "k") gDown gUp reqPing rfl).2 rfl "k" rfl⟩

/-- C2 counterexample: under a relay that always replies with one function
call and the text oi, handleSend emits the text although the latest reply
still contains a function call, so the send/dispatch round does not repeat
until a reply without calls arrives. -/
theorem handleSend_text_despite_calls :
    (handleSend sess0 relayLoop [] []).finalText = some "oi"
    ∧ (relayLoop (handleSend sess0 relayLoop [] []).history).functionCalls.length = 1 :=
  ⟨rfl, rfl⟩

/-- C2 as amended: handleSend performs at most one dispatch round per user
request: it dispatches exactly the calls of the first reply, contacts the
relay at most twice, and emits the truthy text of the last reply received,
whether or not that reply contains further function calls. -/
theorem handleSend_single_round (sess : Session) (relay : List Turn → Reply)
    (invoices : List Invoice) (history0 : List Turn) :
    (handleSend sess relay invoices history0).dispatched = (relay history0).functionCalls
    ∧ (handleSend sess relay invoices history0).sent.length ≤ 2
    ∧ (handleSend sess relay invoices history0).finalText
        = jsTruthyText (relay (handleSend sess relay invoices history0).history).text := by
  unfold handleSend
  dsimp only
  by_cases h : (relay history0).functionCalls.isEmpty = true
  · have h0 : (relay history0).functionCalls = [] := List.isEmpty_iff.mp h
    rw [if_pos h]
    refine ⟨h0.symm, ?_, rfl⟩
    show (1 : Nat) ≤ 2
    decide
  · rw [if_neg h]
    refine ⟨rfl, ?_, rfl⟩
    show (2 : Nat) ≤ 2
    decide

/-- C4 counterexample: with a relay whose follow-up reply still carries one
function call, that reply produces no function response at all — the history
holds a single response part from the first round — and no further relay call
is issued, although the final text is emitted. -/
theorem second_reply_calls_unanswered :
    (relayTwo (handleSend sess0 relayTwo [] []).history).functionCalls.length = 1
    ∧ countResponses (handleSend sess0 relayTwo [] []).history = 1
    ∧ (handleSend sess0 relayTwo [] []).sent.length = 2
    ∧ (handleSend sess0 relayTwo [] []).finalText = some "done" :=
  ⟨rfl, by decide, rfl, rfl⟩

/-- C4 as amended: for the reply whose calls handleSend dispatches — the
first reply of the send, whenever it contains at least one call — exactly one
function response is produced per call, in order and matched by name, the
responses are appended together as one synthetic user turn after the model
turn holding the raw reply parts, and the second relay call receives exactly
that extended history. A response is produced even for a call whose execution
throws. -/
theorem handleSend_dispatch_round (sess : Session) (relay : List Turn → Reply)
    (invoices : List Invoice) (history0 : List Turn)
    (h : (relay history0).functionCalls ≠ []) :
    (handleSend sess relay invoices history0).history
        = history0 ++ [⟨"model", (relay history0).parts⟩,
            ⟨"user", functionResponsesFor sess invoices (relay history0).functionCalls⟩]
    ∧ (handleSend sess relay invoices history0).sent
        = [history0, (handleSend sess relay invoices history0).history]
    ∧ (functionResponsesFor sess invoices (relay history0).functionCalls).length
        = (relay history0).functionCalls.length
    ∧ (functionResponsesFor sess invoices (relay history0).functionCalls).map partRespName
        = (relay history0).functionCalls.map fun fc => some fc.name := by
  have hb : ¬ (relay history0).functionCalls.isEmpty = true := by
    simp [List.isEmpty_iff, h]
  refine ⟨?_, ?_, ?_, ?_⟩
  · unfold handleSend
    dsimp only
    rw [if_neg hb]
    dsimp only
    rw [List.append_assoc]
    rfl
  · unfold handleSend
    dsimp only
    rw [if_neg hb]
  · exact List.length_map _ _
  · unfold functionResponsesFor
    rw [List.map_map]
    rfl

/-- C4 witness: a first reply with two calls, the second of which throws;
both still receive a response part matched by name. -/
theorem handleSend_dispatch_round_witness :
    (handleSend sess0 relayW [] []).history
        = [] ++ [⟨"model", (relayW []).parts⟩,
            ⟨"user", functionResponsesFor sess0 [] (relayW []).functionCalls⟩]
    ∧ (handleSend sess0 relayW [] []).sent
        = [[], (handleSend sess0 relayW [] []).history]
    ∧ (functionResponsesFor sess0 [] (relayW []).functionCalls).length
        = (relayW []).functionCalls.length
    ∧ (functionResponsesFor sess0 [] (relayW []).functionCalls).map partRespName
        = (relayW []).functionCalls.map fun fc => some fc.name :=
  handleSend_dispatch_round sess0 relayW [] [] (by decide)

/-- C3 counterexample: at 23:00 UTC in a zone two hours ahead, the created
record's issueDate is the UTC date 1970-01-01, while the session local date is
already 1970-01-02, so issueDate does not equal the session local date. -/
theorem createInvoice_issueDate_is_utc :
    (executeFunctionCall sess0 "createInvoice" argsC3 []).snd.map Invoice.issueDate
        = ["1970-01-01"]
    ∧ localTodayISO sess0 = "1970-01-02"
    ∧ (executeFunctionCall sess0 "createInvoice" argsC3 []).snd.map Invoice.issueDate
        ≠ [localTodayISO sess0] :=
  ⟨by decide, by decide, by decide⟩

/-- C3 as amended: for valid create arguments, the created record is Vencido
exactly when the due date is an earlier calendar day than today in the session
local time zone (date-only comparison) and Pendente otherwise, omitted
observations default to the empty string, and issueDate is the current UTC
calendar date (the toISOString date), which coincides with the session local
date only while the two zones agree on the calendar day. -/
theorem createInvoice_record (sess : Session) (args : Args) (invoices : List Invoice)
    (due : String) (z : Int)
    (hc : args.clientName.isSome = true) (ha : args.amount.isSome = true)
    (hd : args.dueDate = some due)
    (hz : jsDateFromParts (splitNums due) = some z) :
    executeFunctionCall sess "createInvoice" args invoices
      = (Except.ok (ExecResult.createOk args.clientName args.amount),
          storeAdd invoices
            { id := sess.freshId
              clientName := args.clientName
              amount := args.amount
              issueDate := toISODateString sess.nowUtcMin
              dueDate := due
              status := if z < localDays sess then .Vencido else .Pendente
              observations := args.observations.getD "" }) := by
  rw [exec_create_def]
  unfold executeCreate
  rw [hd]
  dsimp only
  rw [hz]
  dsimp only
  have hiff : (z * 1440 - sess.tzOffMin <
      Int.fdiv (sess.nowUtcMin + sess.tzOffMin) 1440 * 1440 - sess.tzOffMin)
      ↔ z < localDays sess := by
    unfold localDays
    generalize Int.fdiv (sess.nowUtcMin + sess.tzOffMin) 1440 = q
    omega
  simp only [decide_eq_true_eq, hiff]

/-- C3 witness: valid arguments with due date 1970-01-05 seen from sess0. -/
theorem createInvoice_record_witness :
    executeFunctionCall sess0 "createInvoice" argsC3 []
      = (Except.ok (ExecResult.createOk (some "Alice") (some 100)),
          storeAdd []
            { id := "inv-1"
              clientName := some "Alice"
              amount := some 100
              issueDate := toISODateString sess0.nowUtcMin
              dueDate := "1970-01-05"
              status := if (4 : Int) < localDays sess0 then .Vencido else .Pendente
              observations := "" }) :=
  createInvoice_record sess0 argsC3 [] "1970-01-05" 4 rfl rfl rfl (by decide)

/-- Merging the same argument object twice gives the same record as merging
it once. -/
theorem mergeInvoiceArgs_idem (inv : Invoice) (args : Args) :
    mergeInvoiceArgs (mergeInvoiceArgs inv args) args = mergeInvoiceArgs inv args := by
  obtain ⟨aid, acn, aam, adt, ast, aob⟩ := args
  unfold mergeInvoiceArgs
  cases aid <;> cases acn <;> cases aam <;> cases adt <;> cases ast <;> cases aob <;> rfl

/-- The merged record carries the id of the argument object when present. -/
theorem mergeInvoiceArgs_id (inv : Invoice) (args : Args) (i : String)
    (hid : args.id = some i) : (mergeInvoiceArgs inv args).id = i := by
  simp [mergeInvoiceArgs, hid]

/-- Replacing by the same record twice is the same as replacing once. -/
theorem storeUpdate_idem (s : List Invoice) (m : Invoice) :
    storeUpdate (storeUpdate s m) m = storeUpdate s m := by
  unfold storeUpdate
  rw [List.map_map]
  have hf : ((fun inv => if inv.id = m.id then m else inv)
        ∘ (fun inv => if inv.id = m.id then m else inv))
      = (fun inv : Invoice => if inv.id = m.id then m else inv) := by
    funext x
    by_cases hx : x.id = m.id <;> simp [Function.comp, hx]
  rw [hf]

/-- After the store replaced the matched record by the merged one, the same
case-insensitive search finds the merged record when the original id casing
coincided with the written id, and the untouched original otherwise. -/
theorem find?_storeUpdate (s : List Invoice) (i : String) (orig m : Invoice)
    (hm : m.id = i) (h : s.find? (lowEq i) = some orig) :
    (storeUpdate s m).find? (lowEq i) = some (if orig.id = i then m else orig) := by
  have hmi : lowEq i m = true := by
    simp [lowEq, hm]
  induction s with
  | nil => simp at h
  | cons x xs ih =>
    unfold storeUpdate
    rw [List.map_cons]
    by_cases hx : lowEq i x = true
    · rw [List.find?_cons_of_pos _ hx] at h
      injection h with horig
      subst horig
      by_cases hxi : x.id = m.id
      · rw [if_pos hxi, List.find?_cons_of_pos _ hmi, if_pos (hxi.trans hm)]
      · rw [if_neg hxi, List.find?_cons_of_pos _ hx,
          if_neg (fun hc => hxi (hc.trans hm.symm))]
    · rw [List.find?_cons_of_neg _ (by simpa using hx)] at h
      have hxi : ¬ x.id = m.id := by
        intro hc
        apply hx
        simp [lowEq, hc, hm]
      rw [if_neg hxi, List.find?_cons_of_neg _ (by simpa using hx)]
      exact ih h

/-- The dispatcher's update, run twice with the same arguments, returns the
same value and leaves the same store as running it once. -/
theorem executeUpdate_idem (args : Args) (invoices : List Invoice) :
    executeUpdate args (executeUpdate args invoices).snd = executeUpdate args invoices := by
  unfold executeUpdate
  cases hid : args.id with
  | none =>
    cases invoices with
    | nil => rfl
    | cons x xs => rfl
  | some i =>
    simp only [findByIdArg_some]
    cases hfind : invoices.find? (lowEq i) with
    | none =>
      dsimp only
      rw [hfind]
    | some orig =>
      dsimp only
      have hm : (mergeInvoiceArgs orig args).id = i := mergeInvoiceArgs_id orig args i hid
      rw [find?_storeUpdate invoices i orig (mergeInvoiceArgs orig args) hm hfind]
      dsimp only
      by_cases horig : orig.id = i
      · rw [if_pos horig, mergeInvoiceArgs_idem, storeUpdate_idem]
      · rw [if_neg horig, storeUpdate_idem]

/-- C9: issuing the same update twice with identical arguments leaves both the
returned value and the store in the same state after the second call as after
the first: the dispatcher's update is idempotent. -/
theorem update_idempotent (sess : Session) (args : Args) (invoices : List Invoice) :
    executeFunctionCall sess "updateInvoice" args
        (executeFunctionCall sess "updateInvoice" args invoices).snd
      = executeFunctionCall sess "updateInvoice" args invoices :=
  executeUpdate_idem args invoices

end NotaFacil
